import Mathlib

/-!
# Verification of the SRF cavity auto-setup orchestration code

Shallow embedding of the two source files of the repository:

* `setup_gui.py` — the amplitude allocator (`GUICryomodule.set_cavity_amps`)
  and the thread-pool setup worker (`SetupWorker.run`);
* `setup_linac.py` — the PV-driven staged setup pipeline
  (`SetupCavity.setup`, `AutoLinacObject.check_abort`).

Spinbox / PV amplitude values are embedded as rationals; each stateful
pipeline is embedded as a function from an explicit state to a result
carrying an `Except` outcome, the final state, and a trace of published
events (PV puts, Qt signal emissions, driver-layer calls).
-/

namespace SrfSetup

/-! ## Amplitude allocator (`GUICryomodule.set_cavity_amps`)

A cryomodule owns exactly eight `GUICavity` widgets (`range(1, 9)` in
`GUICryomodule.__post_init__`).  For the allocator, the relevant state of
one cavity widget is its desired-amplitude spinbox value and its amplitude
maximum (`caget(amax_pv)`, assumed stable during one invocation, as the
code itself re-reads it without guarding against change). -/

structure CavState where
  spinbox : ℚ
  amax : ℚ
deriving DecidableEq, Repr

/-- The per-cryomodule collection of the eight cavity widgets. -/
abbrev CMState := Fin 8 → CavState

/-- Embeds `cav_des_amp = self.spinbox.value() / 8.0` (line 321). -/
def cav_des_amp (target : ℚ) : ℚ := target / 8

/-- The cavities collected in `cavities_at_amax` (lines 326-330): those
whose maximum reads strictly below the equal share. -/
def cavities_at_amax (target : ℚ) (cavs : CMState) : Finset (Fin 8) :=
  Finset.univ.filter fun i => (cavs i).amax < cav_des_amp target

/-- Embeds `current_sum`, the running total of the eight spinbox values
(lines 324, 327). -/
def current_sum (cavs : CMState) : ℚ := ∑ i, (cavs i).spinbox

/-- Embeds `total_remainder`, the deficit accumulated over saturated cavities
(lines 322, 329). -/
def total_remainder (target : ℚ) (cavs : CMState) : ℚ :=
  ∑ i ∈ cavities_at_amax target cavs, (cav_des_amp target - (cavs i).amax)

/-- Embeds `GUICryomodule.set_cavity_amps` (setup_gui.py lines 320-341).
`none` models the `ZeroDivisionError` raised at line 335 when
`8 - len(cavities_at_amax)` is zero; the early `return` at lines 332-333
(current sum already equal to the target) leaves every spinbox unchanged. -/
def set_cavity_amps (target : ℚ) (cavs : CMState) : Option CMState :=
  if current_sum cavs = target then some cavs
  else if (cavities_at_amax target cavs).card = 8 then none
  else
    let cav_remainder :=
      total_remainder target cavs / (8 - ((cavities_at_amax target cavs).card : ℚ))
    some fun i =>
      if i ∈ cavities_at_amax target cavs then { cavs i with spinbox := (cavs i).amax }
      else { cavs i with spinbox := cav_des_amp target + cav_remainder }

/-- Helper: the number of non-saturated cavities, as a rational, is
`8 - card` and is positive when not all eight are saturated. -/
theorem card_not_at_amax_pos {target : ℚ} {cavs : CMState}
    (h : (cavities_at_amax target cavs).card ≠ 8) :
    (0 : ℚ) < 8 - ((cavities_at_amax target cavs).card : ℚ) := by
  have hle : (cavities_at_amax target cavs).card ≤ 8 := by
    simpa using Finset.card_filter_le Finset.univ
      fun i => (cavs i).amax < cav_des_amp target
  have hlt : (cavities_at_amax target cavs).card < 8 := lt_of_le_of_ne hle h
  have : ((cavities_at_amax target cavs).card : ℚ) < 8 := by exact_mod_cast hlt
  linarith

/-- Helper: whenever `set_cavity_amps` returns an assignment, the sum of the
assigned spinbox values is exactly the target. -/
theorem set_cavity_amps_sum {target : ℚ} {cavs cavs' : CMState}
    (h : set_cavity_amps target cavs = some cavs') :
    current_sum cavs' = target := by
  unfold set_cavity_amps at h
  split at h
  · next heq => cases h; exact heq
  · split at h
    · cases h
    · next hsum hcard =>
      cases h
      have hpos := card_not_at_amax_pos hcard
      have hne : (8 : ℚ) - ((cavities_at_amax target cavs).card : ℚ) ≠ 0 := ne_of_gt hpos
      unfold current_sum
      rw [Finset.sum_congr rfl fun i _ => rfl]
      have hsplit :
          (∑ i, (if i ∈ cavities_at_amax target cavs
            then { cavs i with spinbox := (cavs i).amax }
            else { cavs i with
              spinbox := cav_des_amp target +
                total_remainder target cavs /
                  (8 - ((cavities_at_amax target cavs).card : ℚ)) }).spinbox) =
          (∑ i ∈ cavities_at_amax target cavs, (cavs i).amax) +
          (∑ i ∈ (cavities_at_amax target cavs)ᶜ,
            (cav_des_amp target +
              total_remainder target cavs /
                (8 - ((cavities_at_amax target cavs).card : ℚ)))) := by
        rw [← Finset.sum_add_sum_compl (cavities_at_amax target cavs)]
        congr 1
        · exact Finset.sum_congr rfl fun i hi => by simp [hi]
        · refine Finset.sum_congr rfl fun i hi => ?_
          rw [Finset.mem_compl] at hi
          simp [hi]
      rw [hsplit, Finset.sum_const, Finset.card_compl]
      have hcard8 : Fintype.card (Fin 8) = 8 := by simp
      have hrem :
          ((8 - (cavities_at_amax target cavs).card : ℕ) : ℚ) =
            8 - ((cavities_at_amax target cavs).card : ℚ) := by
        have hle : (cavities_at_amax target cavs).card ≤ 8 := by
          simpa using Finset.card_filter_le Finset.univ
            fun i => (cavs i).amax < cav_des_amp target
        push_cast [Nat.cast_sub hle]
        ring
      rw [hcard8, nsmul_eq_mul, hrem, mul_add,
        mul_div_cancel₀ _ hne]
      unfold total_remainder
      rw [Finset.sum_sub_distrib, Finset.sum_const, nsmul_eq_mul]
      unfold cav_des_amp
      ring

/-- Helper: an assignment never changes a cavity's maximum. -/
theorem set_cavity_amps_amax {target : ℚ} {cavs cavs' : CMState}
    (h : set_cavity_amps target cavs = some cavs') :
    ∀ i, (cavs' i).amax = (cavs i).amax := by
  unfold set_cavity_amps at h
  split at h
  · cases h; intro i; rfl
  · split at h
    · cases h
    · cases h
      intro i
      by_cases hi : i ∈ cavities_at_amax target cavs <;> simp [hi]

/-- Spec example 1: all eight maxima equal to 3, spinboxes at 0. -/
def exAll3 : CMState := fun _ => ⟨0, 3⟩

/-- The allocation the code produces for spec example 1. -/
def exAll3Res : CMState := fun _ => ⟨2, 3⟩

/-- Spec example 2: maxima `[1,1,1,1,5,5,5,5]`, spinboxes at 0. -/
def exSplit : CMState := fun i => if i.val < 4 then ⟨0, 1⟩ else ⟨0, 5⟩

/-- The allocation the code produces for spec example 2. -/
def exSplitRes : CMState := fun i => if i.val < 4 then ⟨1, 1⟩ else ⟨3, 5⟩

theorem exAll3_filter : cavities_at_amax 16 exAll3 = ∅ := by
  ext i
  simp only [cavities_at_amax, cav_des_amp, exAll3, Finset.mem_filter,
    Finset.mem_univ, true_and, Finset.not_mem_empty, iff_false]
  norm_num

theorem exAll3_eval : set_cavity_amps 16 exAll3 = some exAll3Res := by
  unfold set_cavity_amps
  rw [if_neg (by norm_num [current_sum, exAll3, Fin.sum_univ_eight]),
    if_neg (by rw [exAll3_filter]; norm_num)]
  simp only [exAll3_filter, total_remainder, Finset.sum_empty, Finset.card_empty]
  congr 1
  funext i
  rw [if_neg (Finset.not_mem_empty i)]
  have : (8 : ℚ) - ((0 : ℕ) : ℚ) = 8 := by norm_num
  norm_num [cav_des_amp, exAll3, exAll3Res]

theorem exSplit_filter :
    cavities_at_amax 16 exSplit = Finset.univ.filter fun i => i.val < 4 := by
  ext i
  simp only [cavities_at_amax, cav_des_amp, exSplit, Finset.mem_filter,
    Finset.mem_univ, true_and]
  by_cases h : (i : ℕ) < 4
  · rw [if_pos h]
    norm_num [h]
  · rw [if_neg h]
    norm_num [h]

theorem exSplit_eval : set_cavity_amps 16 exSplit = some exSplitRes := by
  have hcard : (Finset.univ.filter fun i : Fin 8 => i.val < 4).card = 4 := by decide
  have htot : total_remainder 16 exSplit = 4 := by
    rw [total_remainder, exSplit_filter, Finset.sum_filter, Fin.sum_univ_eight]
    simp +decide only [exSplit]
    norm_num [cav_des_amp]
  unfold set_cavity_amps
  rw [if_neg (by rw [current_sum, Fin.sum_univ_eight]; simp +decide [exSplit]),
    if_neg (by rw [exSplit_filter, hcard]; norm_num)]
  simp only [exSplit_filter, htot, hcard]
  congr 1
  funext i
  by_cases h : i ∈ Finset.univ.filter fun j : Fin 8 => j.val < 4
  · rw [if_pos h]
    have hv : (i : ℕ) < 4 := (Finset.mem_filter.mp h).2
    simp [exSplit, exSplitRes, hv]
  · rw [if_neg h]
    have hv : ¬(i : ℕ) < 4 := fun hc => h (Finset.mem_filter.mpr ⟨Finset.mem_univ i, hc⟩)
    simp only [exSplit, exSplitRes, if_neg hv]
    norm_num [cav_des_amp]

/-- C1: for the eight-cavity group, `set_cavity_amps` computes the equal
share `s = T/8`, treats exactly the cavities whose maximum is below `s` as
saturated, raises the share of the others by `deficit / (8 - |saturated|)`,
assigns saturated cavities their maximum and the rest the raised share
(stated under the two code guards: the current sum differs from the target
and not all eight cavities are saturated); in particular with maxima
`[3,3,3,3,3,3,3,3]` and target 16 every cavity is assigned 2, and with
maxima `[1,1,1,1,5,5,5,5]` and target 16 the four capped cavities are
assigned 1 and the other four are assigned 3. -/
theorem C1_allocator (T : ℚ) (cavs : CMState) :
    (current_sum cavs ≠ T → (cavities_at_amax T cavs).card < 8 →
      set_cavity_amps T cavs = some fun i =>
        if (cavs i).amax < T / 8 then { cavs i with spinbox := (cavs i).amax }
        else { cavs i with spinbox :=
          T / 8 + (∑ j ∈ Finset.univ.filter fun j => (cavs j).amax < T / 8,
              (T / 8 - (cavs j).amax)) /
            (8 - ((Finset.univ.filter fun j => (cavs j).amax < T / 8).card : ℚ)) }) ∧
    set_cavity_amps 16 exAll3 = some exAll3Res ∧
    set_cavity_amps 16 exSplit = some exSplitRes := by
  refine ⟨fun hsum hcard => ?_, exAll3_eval, exSplit_eval⟩
  unfold set_cavity_amps
  rw [if_neg hsum, if_neg (Nat.ne_of_lt hcard)]
  simp only [cavities_at_amax, total_remainder, cav_des_amp]
  congr 1
  funext i
  by_cases hi : (cavs i).amax < T / 8
  · rw [if_pos (Finset.mem_filter.mpr ⟨Finset.mem_univ i, hi⟩), if_pos hi]
  · rw [if_neg
      (show i ∉ Finset.univ.filter (fun j => (cavs j).amax < T / 8) from
        fun hmem => hi (Finset.mem_filter.mp hmem).2),
      if_neg hi]

/-- C1 witness: the general clause applied to the concrete spec example. -/
theorem C1_allocator_witness :
    set_cavity_amps 16 exAll3 = some fun i =>
      if (exAll3 i).amax < 16 / 8 then { exAll3 i with spinbox := (exAll3 i).amax }
      else { exAll3 i with spinbox :=
        16 / 8 + (∑ j ∈ Finset.univ.filter fun j => (exAll3 j).amax < 16 / 8,
            ((16 : ℚ) / 8 - (exAll3 j).amax)) /
          (8 - ((Finset.univ.filter fun j => (exAll3 j).amax < (16 : ℚ) / 8).card : ℚ)) } :=
  (C1_allocator 16 exAll3).1
    (by norm_num [current_sum, exAll3, Fin.sum_univ_eight])
    (by rw [exAll3_filter]; norm_num)

/-- C7 counterexample input: maxima `[1,1,1,1,1,1,1,3]`, spinboxes at 0. -/
def exOver : CMState := fun i => if i.val < 7 then ⟨0, 1⟩ else ⟨0, 3⟩

/-- The allocation the code produces on `exOver` with target 16: the seven
saturated cavities get their maximum 1, the eighth gets `2 + 7/1 = 9`. -/
def exOverRes : CMState := fun i => if i.val < 7 then ⟨1, 1⟩ else ⟨9, 3⟩

theorem exOver_filter :
    cavities_at_amax 16 exOver = Finset.univ.filter fun i => i.val < 7 := by
  ext i
  simp only [cavities_at_amax, cav_des_amp, exOver, Finset.mem_filter,
    Finset.mem_univ, true_and]
  by_cases h : (i : ℕ) < 7
  · rw [if_pos h]
    norm_num [h]
  · rw [if_neg h]
    norm_num [h]

theorem exOver_eval : set_cavity_amps 16 exOver = some exOverRes := by
  have hcard : (Finset.univ.filter fun i : Fin 8 => i.val < 7).card = 7 := by decide
  have htot : total_remainder 16 exOver = 7 := by
    rw [total_remainder, exOver_filter, Finset.sum_filter, Fin.sum_univ_eight]
    simp +decide only [exOver]
    norm_num [cav_des_amp]
  unfold set_cavity_amps
  rw [if_neg (by rw [current_sum, Fin.sum_univ_eight]; simp +decide [exOver]),
    if_neg (by rw [exOver_filter, hcard]; norm_num)]
  simp only [exOver_filter, htot, hcard]
  congr 1
  funext i
  by_cases h : i ∈ Finset.univ.filter fun j : Fin 8 => j.val < 7
  · rw [if_pos h]
    have hv : (i : ℕ) < 7 := (Finset.mem_filter.mp h).2
    simp [exOver, exOverRes, hv]
  · rw [if_neg h]
    have hv : ¬(i : ℕ) < 7 := fun hc => h (Finset.mem_filter.mpr ⟨Finset.mem_univ i, hc⟩)
    simp only [exOver, exOverRes, if_neg hv]
    norm_num [cav_des_amp]

/-- C7 is false as stated: on maxima `[1,1,1,1,1,1,1,3]` with target 16 the
allocator assigns a total of 16, which exceeds the summed maxima 10 — the
single-pass redistribution does not re-clamp the raised share. -/
theorem C7_counterexample :
    set_cavity_amps 16 exOver = some exOverRes ∧
    current_sum exOverRes = 16 ∧ (∑ i, (exOver i).amax) = 10 ∧
    ¬(16 : ℚ) ≤ 10 := by
  refine ⟨exOver_eval, ?_, ?_, by norm_num⟩
  · rw [current_sum, Fin.sum_univ_eight]
    simp +decide [exOverRes]
    norm_num
  · rw [Fin.sum_univ_eight]
    simp +decide [exOver]
    norm_num

/-- C7 (amended): whenever the allocator returns an assignment, the sum of
the assigned amplitudes equals the group target `T` exactly and every
cavity's maximum is untouched; consequently the assigned sum is bounded by
the summed maxima exactly when `T` is. -/
theorem C7_sum_after_clamping (T : ℚ) (cavs cavs' : CMState)
    (h : set_cavity_amps T cavs = some cavs') :
    current_sum cavs' = T ∧ (∀ i, (cavs' i).amax = (cavs i).amax) ∧
    (T ≤ ∑ i, (cavs i).amax → current_sum cavs' ≤ ∑ i, (cavs' i).amax) := by
  refine ⟨set_cavity_amps_sum h, set_cavity_amps_amax h, fun hT => ?_⟩
  rw [set_cavity_amps_sum h]
  calc T ≤ ∑ i, (cavs i).amax := hT
    _ = ∑ i, (cavs' i).amax :=
      Finset.sum_congr rfl fun i _ => (set_cavity_amps_amax h i).symm

/-- C7 witness: the amended statement at the concrete no-saturation input. -/
theorem C7_sum_after_clamping_witness :
    current_sum exAll3Res = 16 ∧ (∀ i, (exAll3Res i).amax = (exAll3 i).amax) ∧
    ((16 : ℚ) ≤ ∑ i, (exAll3 i).amax →
      current_sum exAll3Res ≤ ∑ i, (exAll3Res i).amax) :=
  C7_sum_after_clamping 16 exAll3 exAll3Res exAll3_eval

/-- C8: the allocator is a no-op when the current spinbox sum already
equals the target, and running it a second time on its own output (same
target, maxima unchanged by the first run) reproduces the assignment. -/
theorem C8_idempotent (T : ℚ) (cavs : CMState) :
    (current_sum cavs = T → set_cavity_amps T cavs = some cavs) ∧
    ∀ cavs', set_cavity_amps T cavs = some cavs' →
      set_cavity_amps T cavs' = some cavs' := by
  constructor
  · intro h
    unfold set_cavity_amps
    rw [if_pos h]
  · intro cavs' h
    unfold set_cavity_amps
    rw [if_pos (set_cavity_amps_sum h)]

/-- C8 witness: a state whose spinboxes already sum to the target is
returned unchanged. -/
def exEq : CMState := fun _ => ⟨2, 3⟩

theorem C8_idempotent_witness : set_cavity_amps 16 exEq = some exEq :=
  (C8_idempotent 16 exEq).1 (by norm_num [current_sum, exEq, Fin.sum_univ_eight])

/-- C10: when all eight maxima are strictly below the equal share and the
current sum differs from the target (so the early no-op return is not
taken), the allocator hits the division by `8 - len(cavities_at_amax) = 0`
— modelled as `none` — so the error branch is reachable. -/
theorem C10_all_saturated_error (T : ℚ) (cavs : CMState)
    (hall : ∀ i, (cavs i).amax < cav_des_amp T)
    (hsum : current_sum cavs ≠ T) :
    set_cavity_amps T cavs = none := by
  have huniv : cavities_at_amax T cavs = Finset.univ :=
    Finset.filter_true_of_mem fun i _ => hall i
  unfold set_cavity_amps
  rw [if_neg hsum, if_pos (by rw [huniv]; simp)]

/-- C10 witness: all maxima 1 against target 16 (share 2) raises. -/
def exLow : CMState := fun _ => ⟨0, 1⟩

theorem C10_all_saturated_error_witness : set_cavity_amps 16 exLow = none :=
  C10_all_saturated_error 16 exLow
    (fun i => by norm_num [exLow, cav_des_amp])
    (by norm_num [current_sum, exLow, Fin.sum_univ_eight])

/-! ## Sequential actions with an exception outcome and an event trace

Both pipelines (`SetupCavity.setup` and `SetupWorker.run`) are straight-line
Python with in-order side effects (PV puts / Qt signals / driver calls) and
a single `try/except` boundary.  An action transforms a state and produces
an `Except` outcome together with the list of observable events it emitted;
`aseq` is Python's statement sequencing (a raised exception skips the rest). -/

/-- The exception classes named in the `except` clauses of the repository
(setup_linac.py lines 316-329 and setup_gui.py lines 110-116). -/
inductive FaultKind
  | stepperError
  | detuneError
  | ssaCalibrationError
  | pvInvalidError
  | quenchError
  | cavityQLoadedCalibrationError
  | cavityScaleFactorCalibrationError
  | ssaFaultError
  | stepperAbortError
  | cavityHWModeError
  | cavityFaultError
  | cavityAbortError
deriving DecidableEq, Repr

/-- An exception value: its class and its message (`str(e)`). -/
structure Exc where
  kind : FaultKind
  text : String
deriving DecidableEq, Repr

/-- Result of running an action: outcome, final state, emitted events. -/
structure Res (σ ε : Type) where
  out : Except Exc Unit
  st : σ
  tr : List ε

/-- A sequential, possibly-raising action over state `σ` with events `ε`. -/
def Act (σ ε : Type) := σ → Res σ ε

/-- Statement sequencing: run `a`; if it raised, skip `b`. -/
def aseq {σ ε : Type} (a b : Act σ ε) : Act σ ε := fun s =>
  match a s with
  | ⟨.error e, s1, t1⟩ => ⟨.error e, s1, t1⟩
  | ⟨.ok _, s1, t1⟩ =>
    let r := b s1
    ⟨r.out, r.st, t1 ++ r.tr⟩

/-- The empty statement. -/
def askip {σ ε : Type} : Act σ ε := fun s => ⟨.ok (), s, []⟩

/-- A block of statements in order. -/
def aseqAll {σ ε : Type} (l : List (Act σ ε)) : Act σ ε := l.foldr aseq askip

/-- A stage body guarded by its enable flag (`if flag:` around a block). -/
def agated {σ ε : Type} (flag : Bool) (m : Act σ ε) : Act σ ε :=
  if flag then m else askip

/-- A state update that publishes one event (a PV put / signal emission). -/
def aput {σ ε : Type} (f : σ → σ) (e : ε) : Act σ ε := fun s => ⟨.ok (), f s, [e]⟩

/-- Predicate `TrSub m P`: from every start state, every event `m` emits satisfies
`P`. -/
def TrSub {σ ε : Type} (m : Act σ ε) (P : ε → Prop) : Prop :=
  ∀ s, ∀ e ∈ (m s).tr, P e

theorem trSub_askip {σ ε : Type} {P : ε → Prop} : TrSub (askip : Act σ ε) P := by
  intro s e he
  simp [askip] at he

theorem trSub_aseq {σ ε : Type} {a b : Act σ ε} {P : ε → Prop}
    (ha : TrSub a P) (hb : TrSub b P) : TrSub (aseq a b) P := by
  intro s e he
  unfold aseq at he
  rcases h : a s with ⟨out, s1, t1⟩
  rw [h] at he
  cases out with
  | error ex =>
    exact ha s e (by rw [h]; exact he)
  | ok u =>
    simp only at he
    rcases List.mem_append.mp he with h1 | h2
    · exact ha s e (by rw [h]; exact h1)
    · exact hb s1 e h2

theorem trSub_aseqAll {σ ε : Type} {P : ε → Prop} :
    ∀ {l : List (Act σ ε)}, (∀ m ∈ l, TrSub m P) → TrSub (aseqAll l) P
  | [], _ => trSub_askip
  | m :: l, h =>
    trSub_aseq (h m (List.mem_cons_self m l))
      (trSub_aseqAll fun x hx => h x (List.mem_cons_of_mem _ hx))

theorem trSub_aput {σ ε : Type} {f : σ → σ} {e : ε} {P : ε → Prop}
    (h : P e) : TrSub (aput f e) P := by
  intro s x hx
  simp only [aput, List.mem_singleton] at hx
  exact hx ▸ h

theorem trSub_agated {σ ε : Type} {b : Bool} {m : Act σ ε} {P : ε → Prop}
    (h : TrSub m P) : TrSub (agated b m) P := by
  cases b
  · exact fun s e he => absurd he (by simp [agated, askip])
  · exact h

theorem trSub_agated_false {σ ε : Type} {b : Bool} {m : Act σ ε} {P : ε → Prop}
    (h : b = false) : TrSub (agated b m) P := by
  subst h
  exact fun s e he => absurd he (by simp [agated, askip])

theorem trSub_mono {σ ε : Type} {m : Act σ ε} {P Q : ε → Prop}
    (hPQ : ∀ e, P e → Q e) (h : TrSub m P) : TrSub m Q :=
  fun s e he => hPQ e (h s e he)

/-! ## The PV-driven staged pipeline (`setup_linac.py`, `SetupCavity.setup`)

State: the AUTO PVs owned by one `SetupCavity` (STATUS, PROG, MSG,
SETUPSTOP) together with its amplitude setpoint ADES.  Environment: the
values the run reads once from the outside world — the captured target
`acon`, the RF on/mode readbacks, the four stage-enable request PVs — and,
for every driver-layer call (the opaque blocking operations of the
lcls_tools device layer), whether that call returns normally or raises a
declared fault. -/

/-- setup_linac.py lines 17-19. -/
def STATUS_READY_VALUE : ℕ := 0

def STATUS_RUNNING_VALUE : ℕ := 1

def STATUS_ERROR_VALUE : ℕ := 2

/-- The status messages `SetupCavity.setup` publishes (the f-strings of
lines 244-312, with the cavity identity elided). -/
inductive LMsg
  | alreadyRunning
  | turningOnSSA
  | resettingInterlocks
  | runningSSACal
  | ssaCalibrated
  | tuningToResonance
  | tunedToResonance
  | runningCharacterization
  | characterized
  | rampingToAcon
  | centeringPiezo
  | rampedUp
  | fault (e : Exc)
deriving DecidableEq, Repr

/-- The driver-layer calls `SetupCavity.setup` makes, in source order.
`walkAmp` records its arguments (`self.walk_amp(self.acon, 0.1)`). -/
inductive LCall
  | ssaTurnOn
  | resetInterlocks
  | rfTurnOff
  | ssaCalibrate
  | moveToResonanceOpen
  | characterize
  | piezoEnableFeedback
  | cavTurnOn
  | setSelaMode
  | walkAmp (amp step : ℚ)
  | moveToResonanceSela
  | setSelapMode
deriving DecidableEq, Repr

/-- Observable events of one `SetupCavity.setup` run. -/
inductive LEvent
  | putStatus (v : ℕ)
  | putProgress (v : ℚ)
  | putMessage (m : LMsg)
  | putSetupStop (b : Bool)
  | putAdes (v : ℚ)
  | putCalcProbeQ (v : ℕ)
  | callDriver (c : LCall)
deriving DecidableEq, Repr

/-- The PV-backed state of one `SetupCavity`. -/
structure CavPVs where
  status : ℕ
  progress : ℚ
  message : LMsg
  setup_stop : Bool
  ades : ℚ
deriving DecidableEq, Repr

/-- What one run reads from the outside world. `fault c = some e` means
driver call `c`, when reached, raises `e`; `none` means it returns
normally.  `rf_mode_is_selap` embeds the comparison
`self.rf_mode != sc_linac_utils.RF_MODE_SELAP` of line 293 (the numeric
SELAP constant lives in lcls_tools, outside this repository). -/
structure LEnv where
  acon : ℚ
  is_on : Bool
  rf_mode_is_selap : Bool
  ssa_cal_requested : Bool
  auto_tune_requested : Bool
  cav_char_requested : Bool
  rf_ramp_requested : Bool
  fault : LCall → Option Exc

/-- Embeds `self.status = value` (the `status` property setter, line 122-124). -/
def putStatus (v : ℕ) : Act CavPVs LEvent :=
  aput (fun s => { s with status := v }) (.putStatus v)

/-- Embeds `self.progress = value` (lines 140-142). -/
def putProgress (v : ℚ) : Act CavPVs LEvent :=
  aput (fun s => { s with progress := v }) (.putProgress v)

/-- Embeds `self.status_message = message` (lines 154-157). -/
def putMessage (m : LMsg) : Act CavPVs LEvent :=
  aput (fun s => { s with message := m }) (.putMessage m)

/-- Embeds `self.clear_setup_stop()`, that is `setup_stop_pv_obj.put(0)` (lines 74-75). -/
def clear_setup_stop : Act CavPVs LEvent :=
  aput (fun s => { s with setup_stop := false }) (.putSetupStop false)

/-- Embeds `self.ades = value` (the `ades` setter of the lcls_tools `Cavity`). -/
def putAdes (v : ℚ) : Act CavPVs LEvent :=
  aput (fun s => { s with ades := v }) (.putAdes v)

/-- Embeds `self.calc_probe_q_pv_obj.put(1)` (line 280). -/
def putCalcProbeQ (v : ℕ) : Act CavPVs LEvent :=
  aput (fun s => s) (.putCalcProbeQ v)

/-- One opaque driver-layer call: returns or raises per the environment. -/
def callDriver (env : LEnv) (c : LCall) : Act CavPVs LEvent := fun s =>
  match env.fault c with
  | none => ⟨.ok (), s, [.callDriver c]⟩
  | some e => ⟨.error e, s, [.callDriver c]⟩

/-- The message of the `CavityAbortError` raised by `check_abort`
(`f"Abort requested for {self}"`, line 80, cavity identity elided). -/
def abortText : String := "Abort requested"

/-- Embeds `AutoLinacObject.check_abort` (setup_linac.py lines 77-80): read the
SETUPSTOP PV; if set, clear it and raise `CavityAbortError`. -/
def check_abort : Act CavPVs LEvent := fun s =>
  if s.setup_stop then
    ⟨.error ⟨.cavityAbortError, abortText⟩, { s with setup_stop := false },
      [.putSetupStop false]⟩
  else ⟨.ok (), s, []⟩

/-- The `if self.ssa_cal_requested:` block (lines 258-263). -/
def ssa_cal_stage (env : LEnv) : Act CavPVs LEvent := aseqAll
  [putMessage .runningSSACal, callDriver env .rfTurnOff, putProgress 20,
   callDriver env .ssaCalibrate, putMessage .ssaCalibrated]

/-- The `if self.auto_tune_requested:` block (lines 268-271). -/
def auto_tune_stage (env : LEnv) : Act CavPVs LEvent := aseqAll
  [putMessage .tuningToResonance, callDriver env .moveToResonanceOpen,
   putMessage .tunedToResonance]

/-- The `if self.cav_char_requested:` block (lines 276-282). -/
def cav_char_stage (env : LEnv) : Act CavPVs LEvent := aseqAll
  [putMessage .runningCharacterization, callDriver env .characterize,
   putProgress 60, putCalcProbeQ 1, putProgress 70, putMessage .characterized]

/-- Lines 292-295: `if not self.is_on or (self.is_on and self.rf_mode !=
RF_MODE_SELAP): self.ades = min(5, self.acon)`. -/
def cap_ades (env : LEnv) : Act CavPVs LEvent :=
  if !env.is_on || (env.is_on && !env.rf_mode_is_selap) then
    putAdes (min 5 env.acon)
  else askip

/-- The `if self.rf_ramp_requested:` block (lines 287-312). -/
def rf_ramp_stage (env : LEnv) : Act CavPVs LEvent := aseqAll
  [putMessage .rampingToAcon, callDriver env .piezoEnableFeedback,
   putProgress 80, cap_ades env, callDriver env .cavTurnOn, putProgress 85,
   check_abort, callDriver env .setSelaMode,
   callDriver env (.walkAmp env.acon (1/10)), putProgress 90,
   putMessage .centeringPiezo, callDriver env .moveToResonanceSela,
   putProgress 95, callDriver env .setSelapMode, putMessage .rampedUp]

/-- The body of the `try:` block of `SetupCavity.setup` (lines 247-315),
after the already-running early return. -/
def setup_body (env : LEnv) : Act CavPVs LEvent := aseqAll
  [putStatus STATUS_RUNNING_VALUE, putProgress 0,
   putMessage .turningOnSSA, callDriver env .ssaTurnOn, putProgress 10,
   putMessage .resettingInterlocks, callDriver env .resetInterlocks,
   putProgress 15,
   agated env.ssa_cal_requested (ssa_cal_stage env),
   putProgress 25, check_abort,
   agated env.auto_tune_requested (auto_tune_stage env),
   putProgress 50, check_abort,
   agated env.cav_char_requested (cav_char_stage env),
   putProgress 75, check_abort,
   agated env.rf_ramp_requested (rf_ramp_stage env),
   putProgress 100, putStatus STATUS_READY_VALUE]

/-- Embeds `SetupCavity.setup` (setup_linac.py lines 241-332): the
already-running guard, the staged body, and the single `except` handler
that sets STATUS to error, force-clears SETUPSTOP and publishes `str(e)`. -/
def setup (env : LEnv) (s : CavPVs) : CavPVs × List LEvent :=
  if s.status = STATUS_RUNNING_VALUE then
    ({ s with message := .alreadyRunning }, [.putMessage .alreadyRunning])
  else
    match setup_body env s with
    | ⟨.ok _, s1, t1⟩ => (s1, t1)
    | ⟨.error e, s1, t1⟩ =>
      ({ s1 with status := STATUS_ERROR_VALUE, setup_stop := false, message := .fault e },
        t1 ++ [.putStatus STATUS_ERROR_VALUE, .putSetupStop false,
          .putMessage (.fault e)])

/-! ### Which enable-gated stage owns each observable event -/

/-- The four enable-gated stages of `SetupCavity.setup`. -/
inductive Stage
  | ssaCal
  | autoTune
  | cavChar
  | rfRamp
deriving DecidableEq, Repr

/-- The enable flag the code checks for each gated stage. -/
def stageFlag (env : LEnv) : Stage → Bool
  | .ssaCal => env.ssa_cal_requested
  | .autoTune => env.auto_tune_requested
  | .cavChar => env.cav_char_requested
  | .rfRamp => env.rf_ramp_requested

/-- Which gated stage publishes each status message. -/
def msgStage : LMsg → Option Stage
  | .runningSSACal => some .ssaCal
  | .ssaCalibrated => some .ssaCal
  | .tuningToResonance => some .autoTune
  | .tunedToResonance => some .autoTune
  | .runningCharacterization => some .cavChar
  | .characterized => some .cavChar
  | .rampingToAcon => some .rfRamp
  | .centeringPiezo => some .rfRamp
  | .rampedUp => some .rfRamp
  | _ => none

/-- Which gated stage makes each driver call. -/
def callStage : LCall → Option Stage
  | .rfTurnOff => some .ssaCal
  | .ssaCalibrate => some .ssaCal
  | .moveToResonanceOpen => some .autoTune
  | .characterize => some .cavChar
  | .piezoEnableFeedback => some .rfRamp
  | .cavTurnOn => some .rfRamp
  | .setSelaMode => some .rfRamp
  | .walkAmp _ _ => some .rfRamp
  | .moveToResonanceSela => some .rfRamp
  | .setSelapMode => some .rfRamp
  | _ => none

/-- Which gated stage publishes each progress value (20 is internal to the
SSA-calibration stage; 60 and 70 to characterization; 80, 85, 90, 95 to
the RF ramp; every other published value belongs to the ungated spine). -/
def progressStage (v : ℚ) : Option Stage :=
  if v = 20 then some .ssaCal
  else if v = 60 ∨ v = 70 then some .cavChar
  else if v = 80 ∨ v = 85 ∨ v = 90 ∨ v = 95 then some .rfRamp
  else none

/-- The gated stage an event belongs to, if any. -/
def stageOf : LEvent → Option Stage
  | .putMessage m => msgStage m
  | .callDriver c => callStage c
  | .putProgress v => progressStage v
  | .putAdes _ => some .rfRamp
  | .putCalcProbeQ _ => some .cavChar
  | .putStatus _ => none
  | .putSetupStop _ => none

theorem trSub_callDriver {env : LEnv} {c : LCall} {P : LEvent → Prop}
    (h : P (.callDriver c)) : TrSub (callDriver env c) P := by
  intro s e he
  unfold callDriver at he
  rcases henv : env.fault c with _ | ex <;> rw [henv] at he <;>
    simp only [List.mem_singleton] at he <;> exact he ▸ h

theorem trSub_check_abort {P : LEvent → Prop}
    (h : P (.putSetupStop false)) : TrSub check_abort P := by
  intro s e he
  unfold check_abort at he
  by_cases hs : s.setup_stop
  · rw [if_pos hs] at he
    simp only [List.mem_singleton] at he
    exact he ▸ h
  · rw [if_neg hs] at he
    simp at he

theorem trSub_agated_cases {σ ε : Type} {b : Bool} {m : Act σ ε} {P : ε → Prop}
    (h : b = true → TrSub m P) : TrSub (agated b m) P := by
  cases b
  · exact trSub_agated_false rfl
  · exact trSub_agated (h rfl)

theorem trSub_cap_ades {env : LEnv} {P : LEvent → Prop}
    (h : P (.putAdes (min 5 env.acon))) : TrSub (cap_ades env) P := by
  unfold cap_ades
  split
  · exact trSub_aput h
  · exact trSub_askip

/-- Every event of the SSA-calibration stage is owned by it. -/
theorem ssa_cal_stage_events (env : LEnv) :
    TrSub (ssa_cal_stage env) fun e => stageOf e = some .ssaCal := by
  unfold ssa_cal_stage
  refine trSub_aseqAll ?_
  intro m hm
  simp only [List.mem_cons, List.not_mem_nil, or_false] at hm
  rcases hm with rfl | rfl | rfl | rfl | rfl
  · exact trSub_aput rfl
  · exact trSub_callDriver rfl
  · exact trSub_aput (by norm_num [stageOf, progressStage])
  · exact trSub_callDriver rfl
  · exact trSub_aput rfl

/-- Every event of the auto-tune stage is owned by it. -/
theorem auto_tune_stage_events (env : LEnv) :
    TrSub (auto_tune_stage env) fun e => stageOf e = some .autoTune := by
  unfold auto_tune_stage
  refine trSub_aseqAll ?_
  intro m hm
  simp only [List.mem_cons, List.not_mem_nil, or_false] at hm
  rcases hm with rfl | rfl | rfl
  · exact trSub_aput rfl
  · exact trSub_callDriver rfl
  · exact trSub_aput rfl

/-- Every event of the characterization stage is owned by it. -/
theorem cav_char_stage_events (env : LEnv) :
    TrSub (cav_char_stage env) fun e => stageOf e = some .cavChar := by
  unfold cav_char_stage
  refine trSub_aseqAll ?_
  intro m hm
  simp only [List.mem_cons, List.not_mem_nil, or_false] at hm
  rcases hm with rfl | rfl | rfl | rfl | rfl | rfl
  · exact trSub_aput rfl
  · exact trSub_callDriver rfl
  · exact trSub_aput (by norm_num [stageOf, progressStage])
  · exact trSub_aput rfl
  · exact trSub_aput (by norm_num [stageOf, progressStage])
  · exact trSub_aput rfl

/-- Every event of the RF-ramp stage is owned by it, except the
SETUPSTOP clear of its internal abort checkpoint. -/
theorem rf_ramp_stage_events (env : LEnv) :
    TrSub (rf_ramp_stage env)
      fun e => stageOf e = some .rfRamp ∨ stageOf e = none := by
  unfold rf_ramp_stage
  refine trSub_aseqAll ?_
  intro m hm
  simp only [List.mem_cons, List.not_mem_nil, or_false] at hm
  rcases hm with rfl | rfl | rfl | rfl | rfl | rfl | rfl | rfl | rfl | rfl |
    rfl | rfl | rfl | rfl | rfl
  · exact trSub_aput (Or.inl rfl)
  · exact trSub_callDriver (Or.inl rfl)
  · exact trSub_aput (Or.inl (by norm_num [stageOf, progressStage]))
  · exact trSub_cap_ades (Or.inl rfl)
  · exact trSub_callDriver (Or.inl rfl)
  · exact trSub_aput (Or.inl (by norm_num [stageOf, progressStage]))
  · exact trSub_check_abort (Or.inr rfl)
  · exact trSub_callDriver (Or.inl rfl)
  · exact trSub_callDriver (Or.inl rfl)
  · exact trSub_aput (Or.inl (by norm_num [stageOf, progressStage]))
  · exact trSub_aput (Or.inl rfl)
  · exact trSub_callDriver (Or.inl rfl)
  · exact trSub_aput (Or.inl (by norm_num [stageOf, progressStage]))
  · exact trSub_callDriver (Or.inl rfl)
  · exact trSub_aput (Or.inl rfl)

/-- Every event the staged body emits either belongs to no gated stage or
to a gated stage whose enable flag was read as true. -/
theorem setup_body_classified (env : LEnv) :
    TrSub (setup_body env)
      fun e => stageOf e = none ∨
        ∃ y, stageOf e = some y ∧ stageFlag env y = true := by
  unfold setup_body
  refine trSub_aseqAll ?_
  intro m hm
  simp only [List.mem_cons, List.not_mem_nil, or_false] at hm
  rcases hm with rfl | rfl | rfl | rfl | rfl | rfl | rfl | rfl | rfl | rfl |
    rfl | rfl | rfl | rfl | rfl | rfl | rfl | rfl | rfl | rfl
  · exact trSub_aput (Or.inl rfl)
  · exact trSub_aput (Or.inl (by norm_num [stageOf, progressStage]))
  · exact trSub_aput (Or.inl rfl)
  · exact trSub_callDriver (Or.inl rfl)
  · exact trSub_aput (Or.inl (by norm_num [stageOf, progressStage]))
  · exact trSub_aput (Or.inl rfl)
  · exact trSub_callDriver (Or.inl rfl)
  · exact trSub_aput (Or.inl (by norm_num [stageOf, progressStage]))
  · refine trSub_agated_cases fun hb =>
      trSub_mono (fun e he => Or.inr ⟨.ssaCal, he, hb⟩) (ssa_cal_stage_events env)
  · exact trSub_aput (Or.inl (by norm_num [stageOf, progressStage]))
  · exact trSub_check_abort (Or.inl rfl)
  · refine trSub_agated_cases fun hb =>
      trSub_mono (fun e he => Or.inr ⟨.autoTune, he, hb⟩) (auto_tune_stage_events env)
  · exact trSub_aput (Or.inl (by norm_num [stageOf, progressStage]))
  · exact trSub_check_abort (Or.inl rfl)
  · refine trSub_agated_cases fun hb =>
      trSub_mono (fun e he => Or.inr ⟨.cavChar, he, hb⟩) (cav_char_stage_events env)
  · exact trSub_aput (Or.inl (by norm_num [stageOf, progressStage]))
  · exact trSub_check_abort (Or.inl rfl)
  · refine trSub_agated_cases fun hb =>
      trSub_mono (fun e he => he.elim (fun h1 => Or.inr ⟨.rfRamp, h1, hb⟩) Or.inl)
        (rf_ramp_stage_events env)
  · exact trSub_aput (Or.inl (by norm_num [stageOf, progressStage]))
  · exact trSub_aput (Or.inl rfl)

/-- Lifting the body classification through the `setup` wrapper (its early
return and its fault handler only emit unowned events). -/
theorem setup_classified (env : LEnv) (s : CavPVs) :
    ∀ e ∈ (setup env s).2, stageOf e = none ∨
      ∃ y, stageOf e = some y ∧ stageFlag env y = true := by
  intro e he
  unfold setup at he
  by_cases hrun : s.status = STATUS_RUNNING_VALUE
  · rw [if_pos hrun] at he
    simp only [List.mem_singleton] at he
    exact Or.inl (he ▸ rfl)
  · rw [if_neg hrun] at he
    rcases hbody : setup_body env s with ⟨out, s1, t1⟩
    rw [hbody] at he
    cases out with
    | ok u =>
      exact setup_body_classified env s e (by rw [hbody]; exact he)
    | error ex =>
      simp only [List.mem_append, List.mem_cons, List.not_mem_nil, or_false] at he
      rcases he with he | rfl | rfl | rfl
      · exact setup_body_classified env s e (by rw [hbody]; exact he)
      · exact Or.inl rfl
      · exact Or.inl rfl
      · exact Or.inl rfl

/-- Helper: a gated stage whose enable flag reads false contributes no
event to any `setup` run. -/
theorem setup_skips (env : LEnv) (s : CavPVs) (x : Stage)
    (hx : stageFlag env x = false) :
    ∀ e ∈ (setup env s).2, stageOf e ≠ some x := by
  intro e he hcontra
  rcases setup_classified env s e he with hnone | ⟨y, hy, hflag⟩
  · rw [hcontra] at hnone
    exact Option.noConfusion hnone
  · rw [hcontra] at hy
    rw [← Option.some.inj hy] at hflag
    rw [hx] at hflag
    exact Bool.noConfusion hflag

/-- C2: any declared fault raised anywhere inside one `SetupCavity.setup`
run reaches the single `except` boundary, which sets STATUS to ERROR,
force-clears the SETUPSTOP abort token, and publishes the fault's message;
moreover every one of the twelve caught exception classes can be raised by
some run. -/
theorem C2_fault_boundary :
    (∀ (env : LEnv) (s : CavPVs) (e : Exc) (s1 : CavPVs) (t1 : List LEvent),
      s.status ≠ STATUS_RUNNING_VALUE →
      setup_body env s = ⟨.error e, s1, t1⟩ →
      setup env s =
        ({ s1 with status := STATUS_ERROR_VALUE, setup_stop := false, message := .fault e },
          t1 ++ [.putStatus STATUS_ERROR_VALUE, .putSetupStop false,
            .putMessage (.fault e)])) ∧
    ∀ k : FaultKind, ∃ (env : LEnv) (s s1 : CavPVs) (t1 : List LEvent) (txt : String),
      setup_body env s = ⟨.error ⟨k, txt⟩, s1, t1⟩ := by
  constructor
  · intro env s e s1 t1 hrun hbody
    unfold setup
    rw [if_neg hrun, hbody]
  · intro k
    refine ⟨⟨0, false, false, false, false, false, false, fun _ => some ⟨k, "fault"⟩⟩,
      ⟨0, 0, .alreadyRunning, false, 0⟩, ⟨1, 0, .turningOnSSA, false, 0⟩,
      [.putStatus 1, .putProgress 0, .putMessage .turningOnSSA, .callDriver .ssaTurnOn],
      "fault", rfl⟩

/-- C2 witness: a quench fault injected at the first driver call. -/
def c2env : LEnv :=
  ⟨0, false, false, false, false, false, false,
    fun c => if c = .ssaTurnOn then some ⟨.quenchError, "quench"⟩ else none⟩

def c2st : CavPVs := ⟨0, 0, .alreadyRunning, false, 0⟩

theorem C2_fault_boundary_witness :
    setup c2env c2st =
      (⟨2, 0, .fault ⟨.quenchError, "quench"⟩, false, 0⟩,
        [.putStatus 1, .putProgress 0, .putMessage .turningOnSSA,
         .callDriver .ssaTurnOn, .putStatus 2, .putSetupStop false,
         .putMessage (.fault ⟨.quenchError, "quench"⟩)]) :=
  C2_fault_boundary.1 c2env c2st ⟨.quenchError, "quench"⟩
    ⟨1, 0, .turningOnSSA, false, 0⟩
    [.putStatus 1, .putProgress 0, .putMessage .turningOnSSA, .callDriver .ssaTurnOn]
    (by decide) rfl

/-- C3: an enable-gated stage whose flag reads false is skipped entirely —
no message, progress value, driver call, or amplitude put owned by that
stage appears anywhere in the run's event trace — while (last clause) a
run with every stage disabled and healthy spine calls still walks through
every checkpoint progress value 25, 50, 75 to completion at 100/READY. -/
theorem C3_stage_skipping (env : LEnv) (s : CavPVs) :
    (env.ssa_cal_requested = false →
      ∀ e ∈ (setup env s).2, stageOf e ≠ some .ssaCal) ∧
    (env.auto_tune_requested = false →
      ∀ e ∈ (setup env s).2, stageOf e ≠ some .autoTune) ∧
    (env.cav_char_requested = false →
      ∀ e ∈ (setup env s).2, stageOf e ≠ some .cavChar) ∧
    (env.rf_ramp_requested = false →
      ∀ e ∈ (setup env s).2, stageOf e ≠ some .rfRamp) ∧
    (env.ssa_cal_requested = false → env.auto_tune_requested = false →
      env.cav_char_requested = false → env.rf_ramp_requested = false →
      env.fault .ssaTurnOn = none → env.fault .resetInterlocks = none →
      s.setup_stop = false → s.status ≠ STATUS_RUNNING_VALUE →
      setup env s =
        ({ s with status := STATUS_READY_VALUE, progress := 100, message := .resettingInterlocks },
          [.putStatus STATUS_RUNNING_VALUE, .putProgress 0, .putMessage .turningOnSSA,
           .callDriver .ssaTurnOn, .putProgress 10, .putMessage .resettingInterlocks,
           .callDriver .resetInterlocks, .putProgress 15, .putProgress 25,
           .putProgress 50, .putProgress 75, .putProgress 100,
           .putStatus STATUS_READY_VALUE])) := by
  refine ⟨fun h => setup_skips env s .ssaCal h, fun h => setup_skips env s .autoTune h,
    fun h => setup_skips env s .cavChar h, fun h => setup_skips env s .rfRamp h,
    fun h1 h2 h3 h4 hf1 hf2 hstop hrun => ?_⟩
  unfold setup
  rw [if_neg hrun]
  have hbody : setup_body env s =
      ⟨.ok (), { s with status := STATUS_READY_VALUE, progress := 100, message := .resettingInterlocks },
        [.putStatus STATUS_RUNNING_VALUE, .putProgress 0, .putMessage .turningOnSSA,
         .callDriver .ssaTurnOn, .putProgress 10, .putMessage .resettingInterlocks,
         .callDriver .resetInterlocks, .putProgress 15, .putProgress 25,
         .putProgress 50, .putProgress 75, .putProgress 100,
         .putStatus STATUS_READY_VALUE]⟩ := by
    unfold setup_body aseqAll
    simp [List.foldr, aseq, askip, aput, putStatus, putProgress, putMessage,
      callDriver, check_abort, agated, h1, h2, h3, h4, hf1, hf2, hstop]
  rw [hbody]

/-- C3 witness: the success-path clause at a concrete healthy environment
with every stage disabled. -/
def c3env : LEnv := ⟨5, false, false, false, false, false, false, fun _ => none⟩

def c3st : CavPVs := ⟨0, 0, .alreadyRunning, false, 0⟩

theorem C3_stage_skipping_witness :
    setup c3env c3st =
      ({ c3st with status := STATUS_READY_VALUE, progress := 100, message := .resettingInterlocks },
        [.putStatus STATUS_RUNNING_VALUE, .putProgress 0, .putMessage .turningOnSSA,
         .callDriver .ssaTurnOn, .putProgress 10, .putMessage .resettingInterlocks,
         .callDriver .resetInterlocks, .putProgress 15, .putProgress 25,
         .putProgress 50, .putProgress 75, .putProgress 100,
         .putStatus STATUS_READY_VALUE]) :=
  (C3_stage_skipping c3env c3st).2.2.2.2 rfl rfl rfl rfl rfl rfl rfl (by decide)

/-- C5: starting a device whose STATUS already reads RUNNING mutates
nothing: status and progress keep their values, no stage executes, and the
only published effect is the "already running" report. -/
theorem C5_start_while_running (env : LEnv) (s : CavPVs)
    (h : s.status = STATUS_RUNNING_VALUE) :
    setup env s = ({ s with message := .alreadyRunning }, [.putMessage .alreadyRunning]) ∧
    (setup env s).1.status = s.status ∧
    (setup env s).1.progress = s.progress ∧
    ∀ e ∈ (setup env s).2, e = .putMessage .alreadyRunning := by
  have heq : setup env s =
      ({ s with message := .alreadyRunning }, [.putMessage .alreadyRunning]) := by
    unfold setup
    rw [if_pos h]
  refine ⟨heq, by rw [heq], by rw [heq], ?_⟩
  rw [heq]
  intro e he
  simpa using he

/-- C5 witness: a concrete RUNNING device. -/
def c5st : CavPVs := ⟨1, 42, .tunedToResonance, true, 7⟩

theorem C5_start_while_running_witness :
    setup c3env c5st =
      ({ c5st with message := .alreadyRunning }, [.putMessage .alreadyRunning]) :=
  (C5_start_while_running c3env c5st rfl).1

/-- C6: `check_abort` raises the distinguished `CavityAbortError` exactly
when the SETUPSTOP token reads true, clears the token in that case before
the raise reaches any caller, and is a complete no-op (no state change, no
event) when the token reads false. -/
theorem C6_check_abort (s : CavPVs) :
    ((check_abort s).out = .error ⟨.cavityAbortError, abortText⟩ ↔ s.setup_stop = true) ∧
    (s.setup_stop = true → check_abort s =
      ⟨.error ⟨.cavityAbortError, abortText⟩, { s with setup_stop := false },
        [.putSetupStop false]⟩) ∧
    (s.setup_stop = false → check_abort s = ⟨.ok (), s, []⟩) := by
  cases hs : s.setup_stop with
  | false =>
    refine ⟨?_, fun ht => Bool.noConfusion ht,
      fun _ => by simp [check_abort, hs]⟩
    simp [check_abort, hs]
  | true =>
    refine ⟨?_, fun _ => by simp [check_abort, hs],
      fun hf => Bool.noConfusion hf⟩
    simp [check_abort, hs]

/-- C6 witness: both sides at concrete states. -/
def c6stTrue : CavPVs := ⟨0, 0, .alreadyRunning, true, 0⟩

def c6stFalse : CavPVs := ⟨0, 0, .alreadyRunning, false, 0⟩

theorem C6_check_abort_witness :
    check_abort c6stTrue =
      ⟨.error ⟨.cavityAbortError, abortText⟩, { c6stTrue with setup_stop := false },
        [.putSetupStop false]⟩ ∧
    check_abort c6stFalse = ⟨.ok (), c6stFalse, []⟩ :=
  ⟨(C6_check_abort c6stTrue).2.1 rfl, (C6_check_abort c6stFalse).2.2 rfl⟩

/-! ## The GUI thread-pool worker (`setup_gui.py`, `SetupWorker.run`)

State: the worker's cavity-side mutable data — the two abort flags
(`cavity.abort_flag`, `cavity.steppertuner.abort_flag`), the amplitude
setpoint PV, and the quench-bypass PV.  The RF-mode and piezo-feedback
caputs write external lcls_tools constants (RF_MODE_SEL, RF_MODE_SELA,
PIEZO_FEEDBACK_VALUE) whose numeric values live outside this repository;
they are recorded as tagged trace events. -/

/-- The messages `SetupWorker.run` emits through its Qt signals
(the f-strings of lines 52-108, cavity identity elided). -/
inductive WMsg
  | turningOff
  | rfAndSsaOff
  | resettingSSA
  | resettingInterlocks
  | runningSSACal
  | ssaCalibrated
  | tuningToResonance
  | tunedToResonance
  | runningCharacterization
  | characterized
  | ramping
  | rampedUp
deriving DecidableEq, Repr

/-- The driver-layer calls `SetupWorker.run` makes. -/
inductive WCall
  | rfTurnOff
  | ssaTurnOff
  | ssaReset
  | ssaTurnOn
  | resetInterlocks
  | ssaCalibrate
  | moveToResonance
  | runCalibration
  | cavTurnOn
  | walkAmp (amp step : ℚ)
deriving DecidableEq, Repr

/-- Observable events of one `SetupWorker.run` execution. -/
inductive WEvent
  | statusSig (m : WMsg)
  | finishedSig (m : WMsg)
  | errorSig (e : Exc)
  | call (c : WCall)
  | caputQuenchBypass (v : ℕ)
  | caputAdes (v : ℚ)
  | caputRfModeSel
  | caputRfModeSela
  | caputPiezoFeedback
  | setAbortFlag (b : Bool)
  | setStepperAbortFlag (b : Bool)
deriving DecidableEq, Repr

/-- The worker-visible mutable state. -/
structure WSt where
  abort_flag : Bool
  stepper_abort_flag : Bool
  ades : ℚ
  quench_bypass : ℕ
deriving DecidableEq, Repr

/-- One worker invocation's parameters (`SetupWorker.__init__`): the
desired amplitude, the four stage-enable checkbox values, and the outcome
of each driver call. -/
structure WEnv where
  desAmp : ℚ
  ssa_cal : Bool
  auto_tune : Bool
  cav_char : Bool
  rf_ramp : Bool
  fault : WCall → Option Exc

/-- Embeds `self.signals.status.emit(...)`. -/
def statusSig (m : WMsg) : Act WSt WEvent := aput (fun s => s) (.statusSig m)

/-- Embeds `self.signals.finished.emit(...)`. -/
def finishedSig (m : WMsg) : Act WSt WEvent := aput (fun s => s) (.finishedSig m)

/-- One opaque driver-layer call from the worker. -/
def wcall (env : WEnv) (c : WCall) : Act WSt WEvent := fun s =>
  match env.fault c with
  | none => ⟨.ok (), s, [.call c]⟩
  | some e => ⟨.error e, s, [.call c]⟩

/-- Embeds `caput(self.cavity.quench_bypass_pv, v, wait=True)` (lines 82, 84). -/
def caputQuenchBypass (v : ℕ) : Act WSt WEvent :=
  aput (fun s => { s with quench_bypass := v }) (.caputQuenchBypass v)

/-- Embeds `caput(self.cavity.selAmplitudeDesPV.pvname, v, wait=True)` (line 91). -/
def caputAdes (v : ℚ) : Act WSt WEvent :=
  aput (fun s => { s with ades := v }) (.caputAdes v)

/-- Embeds `caput(self.cavity.rfModeCtrlPV.pvname, RF_MODE_SEL, wait=True)`. -/
def caputRfModeSel : Act WSt WEvent := aput (fun s => s) .caputRfModeSel

/-- Embeds `caput(self.cavity.rfModeCtrlPV.pvname, RF_MODE_SELA, wait=True)`. -/
def caputRfModeSela : Act WSt WEvent := aput (fun s => s) .caputRfModeSela

/-- Embeds `caput(self.cavity.piezo.feedback_mode_PV.pvname, PIEZO_FEEDBACK_VALUE,
wait=True)`. -/
def caputPiezoFeedback : Act WSt WEvent := aput (fun s => s) .caputPiezoFeedback

/-- Modelled from the spec: `Cavity.check_abort` of the lcls_tools device
layer (invoked at the worker's checkpoints, setup_gui.py lines 71, 78, 87,
99) is code outside this repository.  Per the spec's AbortToken contract
the observer reads the flag and, when it is set, clears it before raising
the distinguished abort error; the check is a no-op when the flag is
false. -/
def w_check_abort : Act WSt WEvent := fun s =>
  if s.abort_flag then
    ⟨.error ⟨.cavityAbortError, abortText⟩, { s with abort_flag := false },
      [.setAbortFlag false]⟩
  else ⟨.ok (), s, []⟩

/-- The zero-amplitude shutdown branch of `SetupWorker.run`
(setup_gui.py lines 51-55): RF off, then SSA off. -/
def w_shutdown (env : WEnv) : Act WSt WEvent := aseqAll
  [statusSig .turningOff, wcall env .rfTurnOff, wcall env .ssaTurnOff,
   statusSig .rfAndSsaOff]

/-- The staged branch of `SetupWorker.run` (setup_gui.py lines 57-108). -/
def w_staged (env : WEnv) : Act WSt WEvent := aseqAll
  [statusSig .resettingSSA, wcall env .ssaReset, wcall env .ssaTurnOn,
   statusSig .resettingInterlocks, wcall env .resetInterlocks,
   agated env.ssa_cal (aseqAll
     [statusSig .runningSSACal, wcall env .rfTurnOff, wcall env .ssaCalibrate,
      finishedSig .ssaCalibrated]),
   w_check_abort,
   agated env.auto_tune (aseqAll
     [statusSig .tuningToResonance, wcall env .moveToResonance,
      finishedSig .tunedToResonance]),
   w_check_abort,
   agated env.cav_char (aseqAll
     [statusSig .runningCharacterization, caputQuenchBypass 1,
      wcall env .runCalibration, caputQuenchBypass 0,
      finishedSig .characterized]),
   w_check_abort,
   agated env.rf_ramp (aseqAll
     [statusSig .ramping, caputAdes (min 5 env.desAmp), caputRfModeSel,
      caputPiezoFeedback, caputRfModeSela, wcall env .cavTurnOn,
      w_check_abort,
      (if env.desAmp ≤ 10 then wcall env (.walkAmp env.desAmp (1/2))
       else aseq (wcall env (.walkAmp 10 (1/2)))
         (wcall env (.walkAmp env.desAmp (1/10)))),
      finishedSig .rampedUp])]

/-- The exception classes listed in the worker's `except` clause
(setup_gui.py lines 110-116) — every declared kind except
`CavityFaultError`. -/
def w_caught : FaultKind → Bool
  | .cavityFaultError => false
  | _ => true

/-- Embeds `SetupWorker.run` (setup_gui.py lines 49-119): the zero-amplitude
shutdown substitution (`if not self.desAmp:`), the staged branch, and the
`except` handler that clears both abort flags and emits the error signal.
The first component is `some e` when an uncaught exception escapes. -/
def worker_run (env : WEnv) (s : WSt) : Option Exc × WSt × List WEvent :=
  match (if env.desAmp = 0 then w_shutdown env else w_staged env) s with
  | ⟨.ok _, s1, t1⟩ => (none, s1, t1)
  | ⟨.error e, s1, t1⟩ =>
    if w_caught e.kind then
      (none, { s1 with abort_flag := false, stepper_abort_flag := false },
        t1 ++ [.setAbortFlag false, .setStepperAbortFlag false, .errorSig e])
    else (some e, s1, t1)

theorem trSub_wcall {env : WEnv} {c : WCall} {P : WEvent → Prop}
    (h : P (.call c)) : TrSub (wcall env c) P := by
  intro s e he
  unfold wcall at he
  rcases henv : env.fault c with _ | ex <;> rw [henv] at he <;>
    simp only [List.mem_singleton] at he <;> exact he ▸ h

theorem trSub_w_check_abort {P : WEvent → Prop}
    (h : P (.setAbortFlag false)) : TrSub w_check_abort P := by
  intro s e he
  unfold w_check_abort at he
  by_cases hs : s.abort_flag
  · rw [if_pos hs] at he
    simp only [List.mem_singleton] at he
    exact he ▸ h
  · rw [if_neg hs] at he
    simp at he

/-- The events the zero-amplitude path may emit: the shutdown actions plus
whatever the fault handler appends. -/
def wShutdownEvent : WEvent → Prop
  | .statusSig .turningOff => True
  | .statusSig .rfAndSsaOff => True
  | .call .rfTurnOff => True
  | .call .ssaTurnOff => True
  | .setAbortFlag false => True
  | .setStepperAbortFlag false => True
  | .errorSig _ => True
  | _ => False

theorem w_shutdown_events (env : WEnv) : TrSub (w_shutdown env) wShutdownEvent := by
  unfold w_shutdown
  refine trSub_aseqAll ?_
  intro m hm
  simp only [List.mem_cons, List.not_mem_nil, or_false] at hm
  rcases hm with rfl | rfl | rfl | rfl
  · exact trSub_aput trivial
  · exact trSub_wcall trivial
  · exact trSub_wcall trivial
  · exact trSub_aput trivial

/-- C4 (amended, GUI-worker half): a start request with zero target
amplitude makes `SetupWorker.run` (i) behave identically for every value
of the four stage-enable flags, (ii) emit only shutdown-path (or fault
handler) events — so no enable-gated stage runs — and (iii) when the two
shutdown driver calls succeed, do exactly: RF off, then SSA off. -/
theorem C4_zero_target_shutdown :
    (∀ (env : WEnv) (s : WSt) (b1 b2 b3 b4 : Bool), env.desAmp = 0 →
      worker_run
        { env with ssa_cal := b1, auto_tune := b2, cav_char := b3, rf_ramp := b4 } s =
        worker_run env s) ∧
    (∀ (env : WEnv) (s : WSt), env.desAmp = 0 →
      ∀ e ∈ (worker_run env s).2.2, wShutdownEvent e) ∧
    (∀ (env : WEnv) (s : WSt), env.desAmp = 0 →
      env.fault .rfTurnOff = none → env.fault .ssaTurnOff = none →
      worker_run env s = (none, s,
        [.statusSig .turningOff, .call .rfTurnOff, .call .ssaTurnOff,
         .statusSig .rfAndSsaOff])) := by
  refine ⟨?_, ?_, ?_⟩
  · intro env s b1 b2 b3 b4 h0
    have h0' : ({ env with ssa_cal := b1, auto_tune := b2, cav_char := b3, rf_ramp := b4 } : WEnv).desAmp = 0 := h0
    unfold worker_run
    rw [if_pos h0, if_pos h0']
    rfl
  · intro env s h0 e he
    unfold worker_run at he
    rw [if_pos h0] at he
    rcases hr : w_shutdown env s with ⟨out, s1, t1⟩
    rw [hr] at he
    cases out with
    | ok u => exact w_shutdown_events env s e (by rw [hr]; exact he)
    | error ex =>
      simp only at he
      by_cases hc : w_caught ex.kind
      · rw [if_pos hc] at he
        simp only [List.mem_append, List.mem_cons, List.not_mem_nil, or_false] at he
        rcases he with he | rfl | rfl | rfl
        · exact w_shutdown_events env s e (by rw [hr]; exact he)
        · trivial
        · trivial
        · trivial
      · rw [if_neg hc] at he
        exact w_shutdown_events env s e (by rw [hr]; exact he)
  · intro env s h0 hf1 hf2
    unfold worker_run
    rw [if_pos h0]
    simp [w_shutdown, aseqAll, List.foldr, aseq, askip, statusSig, aput,
      wcall, hf1, hf2]

/-- C4 counterexample: the PV-driven pipeline `SetupCavity.setup` contains
no zero-target substitution — with target amplitude `acon = 0` and the
SSA-calibration stage enabled, the stage runs anyway. -/
def c4env : LEnv := ⟨0, false, false, true, false, false, false, fun _ => none⟩

def c4st : CavPVs := ⟨0, 0, .alreadyRunning, false, 0⟩

theorem C4_counterexample :
    c4env.acon = 0 ∧ c4env.ssa_cal_requested = true ∧
    LEvent.callDriver .ssaCalibrate ∈ (setup c4env c4st).2 := by
  refine ⟨rfl, rfl, ?_⟩
  decide

/-- C4 witness: the exact shutdown behaviour at a concrete zero-target
worker invocation with all four stage flags enabled. -/
def c4wenv : WEnv := ⟨0, true, true, true, true, fun _ => none⟩

def c4wst : WSt := ⟨false, false, 3, 0⟩

theorem C4_zero_target_shutdown_witness :
    worker_run c4wenv c4wst = (none, c4wst,
      [.statusSig .turningOff, .call .rfTurnOff, .call .ssaTurnOff,
       .statusSig .rfAndSsaOff]) :=
  C4_zero_target_shutdown.2.2 c4wenv c4wst rfl rfl rfl

/-! ### RF-ramp step sizes (C9) -/

/-- The `walk_amp` schedule of the worker's RF ramp (setup_gui.py lines
101-106), as (target, step) pairs in call order. -/
def gui_walk_amp_calls (desAmp : ℚ) : List (ℚ × ℚ) :=
  if desAmp ≤ 10 then [(desAmp, 1 / 2)]
  else [(10, 1 / 2), (desAmp, 1 / 10)]

/-- The `walk_amp` schedule of `SetupCavity.setup` (setup_linac.py
line 303). -/
def linac_walk_amp_calls (acon : ℚ) : List (ℚ × ℚ) := [(acon, 1 / 10)]

/-- An event either is no `walk_amp` call, or is the one with target
`acon` and step exactly 1/10. -/
def walkOk (acon : ℚ) : LEvent → Prop
  | .callDriver (.walkAmp a st) => a = acon ∧ st = 1 / 10
  | _ => True

theorem walkOk_of_stage {acon : ℚ} {e : LEvent} {x : Stage}
    (h : stageOf e = some x) (hx : x ≠ .rfRamp) : walkOk acon e := by
  cases e <;> try trivial
  case callDriver c =>
    cases c <;> try trivial
    case walkAmp a st => exact absurd (Option.some.inj h).symm hx

theorem rf_ramp_stage_walk (env : LEnv) :
    TrSub (rf_ramp_stage env) (walkOk env.acon) := by
  unfold rf_ramp_stage
  refine trSub_aseqAll ?_
  intro m hm
  simp only [List.mem_cons, List.not_mem_nil, or_false] at hm
  rcases hm with rfl | rfl | rfl | rfl | rfl | rfl | rfl | rfl | rfl | rfl |
    rfl | rfl | rfl | rfl | rfl
  · exact trSub_aput trivial
  · exact trSub_callDriver trivial
  · exact trSub_aput trivial
  · exact trSub_cap_ades trivial
  · exact trSub_callDriver trivial
  · exact trSub_aput trivial
  · exact trSub_check_abort trivial
  · exact trSub_callDriver trivial
  · exact trSub_callDriver ⟨rfl, rfl⟩
  · exact trSub_aput trivial
  · exact trSub_aput trivial
  · exact trSub_callDriver trivial
  · exact trSub_aput trivial
  · exact trSub_callDriver trivial
  · exact trSub_aput trivial

theorem setup_body_walk (env : LEnv) : TrSub (setup_body env) (walkOk env.acon) := by
  unfold setup_body
  refine trSub_aseqAll ?_
  intro m hm
  simp only [List.mem_cons, List.not_mem_nil, or_false] at hm
  rcases hm with rfl | rfl | rfl | rfl | rfl | rfl | rfl | rfl | rfl | rfl |
    rfl | rfl | rfl | rfl | rfl | rfl | rfl | rfl | rfl | rfl
  · exact trSub_aput trivial
  · exact trSub_aput trivial
  · exact trSub_aput trivial
  · exact trSub_callDriver trivial
  · exact trSub_aput trivial
  · exact trSub_aput trivial
  · exact trSub_callDriver trivial
  · exact trSub_aput trivial
  · exact trSub_agated (trSub_mono
      (fun e he => walkOk_of_stage he fun hh => Stage.noConfusion hh)
      (ssa_cal_stage_events env))
  · exact trSub_aput trivial
  · exact trSub_check_abort trivial
  · exact trSub_agated (trSub_mono
      (fun e he => walkOk_of_stage he fun hh => Stage.noConfusion hh)
      (auto_tune_stage_events env))
  · exact trSub_aput trivial
  · exact trSub_check_abort trivial
  · exact trSub_agated (trSub_mono
      (fun e he => walkOk_of_stage he fun hh => Stage.noConfusion hh)
      (cav_char_stage_events env))
  · exact trSub_aput trivial
  · exact trSub_check_abort trivial
  · exact trSub_agated (rf_ramp_stage_walk env)
  · exact trSub_aput trivial
  · exact trSub_aput trivial

/-- Every `walk_amp` call of any `SetupCavity.setup` run targets `acon`
with step exactly 1/10. -/
theorem setup_walk_steps (env : LEnv) (s : CavPVs) :
    ∀ e ∈ (setup env s).2, walkOk env.acon e := by
  intro e he
  unfold setup at he
  by_cases hrun : s.status = STATUS_RUNNING_VALUE
  · rw [if_pos hrun] at he
    simp only [List.mem_singleton] at he
    exact he ▸ trivial
  · rw [if_neg hrun] at he
    rcases hbody : setup_body env s with ⟨out, s1, t1⟩
    rw [hbody] at he
    cases out with
    | ok u => exact setup_body_walk env s e (by rw [hbody]; exact he)
    | error ex =>
      simp only [List.mem_append, List.mem_cons, List.not_mem_nil, or_false] at he
      rcases he with he | rfl | rfl | rfl
      · exact setup_body_walk env s e (by rw [hbody]; exact he)
      · trivial
      · trivial
      · trivial

/-- An event of the worker either is no `walk_amp` call, or is one of the
entries of the worker's ramp schedule for its target. -/
def wWalkOk (desAmp : ℚ) : WEvent → Prop
  | .call (.walkAmp a st) => (a, st) ∈ gui_walk_amp_calls desAmp
  | _ => True

theorem w_staged_walk (env : WEnv) : TrSub (w_staged env) (wWalkOk env.desAmp) := by
  unfold w_staged
  refine trSub_aseqAll ?_
  intro m hm
  simp only [List.mem_cons, List.not_mem_nil, or_false] at hm
  rcases hm with rfl | rfl | rfl | rfl | rfl | rfl | rfl | rfl | rfl | rfl | rfl | rfl
  · exact trSub_aput trivial
  · exact trSub_wcall trivial
  · exact trSub_wcall trivial
  · exact trSub_aput trivial
  · exact trSub_wcall trivial
  · refine trSub_agated (trSub_aseqAll fun m hm => ?_)
    simp only [List.mem_cons, List.not_mem_nil, or_false] at hm
    rcases hm with rfl | rfl | rfl | rfl
    · exact trSub_aput trivial
    · exact trSub_wcall trivial
    · exact trSub_wcall trivial
    · exact trSub_aput trivial
  · exact trSub_w_check_abort trivial
  · refine trSub_agated (trSub_aseqAll fun m hm => ?_)
    simp only [List.mem_cons, List.not_mem_nil, or_false] at hm
    rcases hm with rfl | rfl | rfl
    · exact trSub_aput trivial
    · exact trSub_wcall trivial
    · exact trSub_aput trivial
  · exact trSub_w_check_abort trivial
  · refine trSub_agated (trSub_aseqAll fun m hm => ?_)
    simp only [List.mem_cons, List.not_mem_nil, or_false] at hm
    rcases hm with rfl | rfl | rfl | rfl | rfl
    · exact trSub_aput trivial
    · exact trSub_aput trivial
    · exact trSub_wcall trivial
    · exact trSub_aput trivial
    · exact trSub_aput trivial
  · exact trSub_w_check_abort trivial
  · refine trSub_agated (trSub_aseqAll fun m hm => ?_)
    simp only [List.mem_cons, List.not_mem_nil, or_false] at hm
    rcases hm with rfl | rfl | rfl | rfl | rfl | rfl | rfl | rfl | rfl
    · exact trSub_aput trivial
    · exact trSub_aput trivial
    · exact trSub_aput trivial
    · exact trSub_aput trivial
    · exact trSub_aput trivial
    · exact trSub_wcall trivial
    · exact trSub_w_check_abort trivial
    · by_cases hd : env.desAmp ≤ 10
      · rw [if_pos hd]
        refine trSub_wcall ?_
        show (env.desAmp, 1 / 2) ∈ gui_walk_amp_calls env.desAmp
        rw [gui_walk_amp_calls, if_pos hd]
        exact List.mem_singleton.mpr rfl
      · rw [if_neg hd]
        refine trSub_aseq (trSub_wcall ?_) (trSub_wcall ?_)
        · show ((10 : ℚ), 1 / 2) ∈ gui_walk_amp_calls env.desAmp
          rw [gui_walk_amp_calls, if_neg hd]
          exact List.mem_cons_self _ _
        · show (env.desAmp, 1 / 10) ∈ gui_walk_amp_calls env.desAmp
          rw [gui_walk_amp_calls, if_neg hd]
          exact List.mem_cons_of_mem _ (List.mem_singleton.mpr rfl)
    · exact trSub_aput trivial

/-- Every `walk_amp` call of any `SetupWorker.run` execution is an entry
of the worker's ramp schedule for its target amplitude. -/
theorem worker_walk_steps (env : WEnv) (s : WSt) :
    ∀ e ∈ (worker_run env s).2.2, wWalkOk env.desAmp e := by
  intro e he
  unfold worker_run at he
  by_cases h0 : env.desAmp = 0
  · rw [if_pos h0] at he
    rcases hr : w_shutdown env s with ⟨out, s1, t1⟩
    rw [hr] at he
    have hsh : TrSub (w_shutdown env) (wWalkOk env.desAmp) :=
      trSub_mono (fun e he => by cases e <;> try trivial
                                 case call c => cases c <;> trivial)
        (w_shutdown_events env)
    cases out with
    | ok u => exact hsh s e (by rw [hr]; exact he)
    | error ex =>
      simp only at he
      by_cases hc : w_caught ex.kind
      · rw [if_pos hc] at he
        simp only [List.mem_append, List.mem_cons, List.not_mem_nil, or_false] at he
        rcases he with he | rfl | rfl | rfl
        · exact hsh s e (by rw [hr]; exact he)
        · trivial
        · trivial
        · trivial
      · rw [if_neg hc] at he
        exact hsh s e (by rw [hr]; exact he)
  · rw [if_neg h0] at he
    rcases hr : w_staged env s with ⟨out, s1, t1⟩
    rw [hr] at he
    cases out with
    | ok u => exact w_staged_walk env s e (by rw [hr]; exact he)
    | error ex =>
      simp only at he
      by_cases hc : w_caught ex.kind
      · rw [if_pos hc] at he
        simp only [List.mem_append, List.mem_cons, List.not_mem_nil, or_false] at he
        rcases he with he | rfl | rfl | rfl
        · exact w_staged_walk env s e (by rw [hr]; exact he)
        · trivial
        · trivial
        · trivial
      · rw [if_neg hc] at he
        exact w_staged_walk env s e (by rw [hr]; exact he)

/-- C9 counterexample: in the worker's ramp the step size used for the
final approach to the target is 1/2 for target 8 but 1/10 for target 12 —
so the increment applied on the way to the target is not independent of
the target value. -/
theorem C9_counterexample :
    (gui_walk_amp_calls 8).map Prod.snd = [1 / 2] ∧
    (gui_walk_amp_calls 12).map Prod.snd = [1 / 2, 1 / 10] ∧
    ((1 : ℚ) / 2) ≠ 1 / 10 := by
  refine ⟨?_, ?_, by norm_num⟩
  · rw [gui_walk_amp_calls, if_pos (by norm_num)]
    rfl
  · rw [gui_walk_amp_calls, if_neg (by norm_num)]
    rfl

/-- C9 (amended): `SetupCavity.setup` walks the amplitude with the single
fixed step constant 1/10 for every target; the worker's ramp draws its
steps from the two fixed constants 1/2 (up to amplitude 10) and 1/10
(above 10) — which constant reaches the target depends on whether the
target exceeds 10, but no step size is computed from the target. -/
theorem C9_ramp_step_constants :
    (∀ a : ℚ, linac_walk_amp_calls a = [(a, 1 / 10)]) ∧
    (∀ (env : LEnv) (s : CavPVs), ∀ e ∈ (setup env s).2, walkOk env.acon e) ∧
    (∀ (env : WEnv) (s : WSt), ∀ e ∈ (worker_run env s).2.2, wWalkOk env.desAmp e) ∧
    (∀ a : ℚ, ∀ p ∈ gui_walk_amp_calls a, p.2 = 1 / 2 ∨ p.2 = 1 / 10) ∧
    (∀ a : ℚ, a ≤ 10 → gui_walk_amp_calls a = [(a, 1 / 2)]) ∧
    (∀ a : ℚ, 10 < a → gui_walk_amp_calls a = [(10, 1 / 2), (a, 1 / 10)]) := by
  refine ⟨fun a => rfl, setup_walk_steps, worker_walk_steps, ?_, ?_, ?_⟩
  · intro a p hp
    unfold gui_walk_amp_calls at hp
    split at hp <;>
      simp only [List.mem_cons, List.mem_singleton, List.not_mem_nil, or_false] at hp
    · rcases hp with rfl
      exact Or.inl rfl
    · rcases hp with rfl | rfl
      · exact Or.inl rfl
      · exact Or.inr rfl
  · intro a ha
    unfold gui_walk_amp_calls
    rw [if_pos ha]
  · intro a ha
    unfold gui_walk_amp_calls
    rw [if_neg (not_le.mpr ha)]

/-- C9 witness: the schedule clauses at targets 8 and 12. -/
theorem C9_ramp_step_constants_witness :
    gui_walk_amp_calls 8 = [(8, 1 / 2)] ∧
    gui_walk_amp_calls 12 = [(10, 1 / 2), (12, 1 / 10)] :=
  ⟨C9_ramp_step_constants.2.2.2.2.1 8 (by norm_num),
   C9_ramp_step_constants.2.2.2.2.2 12 (by norm_num)⟩

end SrfSetup
